import Mathlib

/-!
Verification of the oai-team-auto-provisioner repository: a shallow embedding
of the account tracker (src/utils.py), team-config normalization
(src/config.py), CPA polling and callback recognition (src/cpa_service.py),
and backend account-existence checks (src/crs_service.py, src/s2a_service.py),
with theorems settling the specification's claims about them.
-/

namespace Provisioner

/-! ## Tracker data model (src/utils.py)

A tracked account is a JSON object; the code creates entries with keys
`email`, `status`, `created_at`, `updated_at` and, in the password-carrying
variant, `password` and `role`.  Keys other than `email` may be absent on
entries loaded from disk, so they are modelled as `Option String` and the
code's `dict.get(key, default)` becomes `Option.getD`. -/

structure Account where
  email : String
  status : Option String
  password : Option String
  role : Option String
  created_at : Option String
  updated_at : Option String
  deriving DecidableEq

/-- The tracker dict `{"teams": {name: [account, ...]}}`; the `teams` dict is
modelled as an association list in insertion order (Python dict keys are
unique, captured by `TrackerWF`). -/
structure Tracker where
  teams : List (String × List Account)
  deriving DecidableEq

/-- Reading `tracker["teams"][name]`, with `[]` for an absent team (the code
only reads a team after ensuring the key exists, or guards with `in`). -/
def getTeam : List (String × List Account) → String → List Account
  | [], _ => []
  | (n, l) :: rest, t => if n = t then l else getTeam rest t

/-- `if team_name not in tracker["teams"]: tracker["teams"][team_name] = []`
followed by a mutation of `tracker["teams"][team_name]`: update the team's
list in place if the key exists, otherwise insert the key (at the end, as
Python dict insertion does) with the mutation applied to `[]`. -/
def modifyTeam (t : String) (f : List Account → List Account) :
    List (String × List Account) → List (String × List Account)
  | [] => [(t, f [])]
  | (n, l) :: rest => if n = t then (n, f l) :: rest else (n, l) :: modifyTeam t f rest

/-- The loop body of `add_account_to_tracker` (src/utils.py:84-96): update the
first entry whose `email` matches (overwriting `status` and `updated_at`),
otherwise append a fresh entry carrying only email/status/timestamps. -/
def upsertStatus (email status now : String) : List Account → List Account
  | [] => [{ email := email, status := some status, password := none, role := none,
             created_at := some now, updated_at := some now }]
  | a :: rest =>
    if a.email = email then
      { a with status := some status, updated_at := some now } :: rest
    else
      a :: upsertStatus email status now rest

/-- The loop body of `add_account_with_password` (src/utils.py:182-197):
update the first entry whose `email` matches (overwriting `status`,
`password` and `updated_at`), otherwise append a fresh entry with
`role = "member"`. -/
def upsertStatusPassword (email password status now : String) :
    List Account → List Account
  | [] => [{ email := email, status := some status, password := some password,
             role := some "member", created_at := some now, updated_at := some now }]
  | a :: rest =>
    if a.email = email then
      { a with status := some status, password := some password,
               updated_at := some now } :: rest
    else
      a :: upsertStatusPassword email password status now rest

/-- `add_account_to_tracker(tracker, team_name, email, status)`
(src/utils.py:71-96); `now` stands for `datetime.now().strftime(...)`. -/
def add_account_to_tracker (t : Tracker) (team_name email status now : String) :
    Tracker :=
  ⟨modifyTeam team_name (upsertStatus email status now) t.teams⟩

/-- `add_account_with_password(tracker, team_name, email, password, status)`
(src/utils.py:176-197). -/
def add_account_with_password
    (t : Tracker) (team_name email password status now : String) : Tracker :=
  ⟨modifyTeam team_name (upsertStatusPassword email password status now) t.teams⟩

/-- Entries returned by `get_incomplete_accounts` (dicts with exactly the keys
`email`, `status`, `password`, `role`). -/
structure IncompleteEntry where
  email : String
  status : String
  password : String
  role : String
  deriving DecidableEq

/-- `get_incomplete_accounts(tracker, team_name)` (src/utils.py:137-159):
collect, in order, every entry of the team whose status is not `"completed"`,
projecting email/status/password/role with the code's `.get` defaults. -/
def get_incomplete_accounts (t : Tracker) (team_name : String) :
    List IncompleteEntry :=
  (getTeam t.teams team_name).filterMap fun a =>
    if a.status.getD "" ≠ "completed" then
      some { email := a.email, status := a.status.getD "",
             password := a.password.getD "", role := a.role.getD "member" }
    else
      none

/-- Well-formedness of a tracker state: the `teams` association list models a
Python dict (unique keys), and each team's list has at most one entry per
email (the uniqueness invariant). -/
def TrackerWF (t : Tracker) : Prop :=
  (t.teams.map Prod.fst).Nodup ∧ ∀ p ∈ t.teams, (p.2.map Account.email).Nodup

instance (t : Tracker) : Decidable (TrackerWF t) := by
  unfold TrackerWF; infer_instance

/-- A single tracker upsert, for stating that arbitrary sequences of the two
mutation primitives preserve the uniqueness invariant. -/
inductive UpsertOp where
  | plain (team_name email status now : String)
  | withPassword (team_name email password status now : String)

def applyOp (t : Tracker) : UpsertOp → Tracker
  | .plain team_name email status now =>
      add_account_to_tracker t team_name email status now
  | .withPassword team_name email password status now =>
      add_account_with_password t team_name email password status now

def applyOps (t : Tracker) (ops : List UpsertOp) : Tracker :=
  ops.foldl applyOp t

/-! ## Team-record normalization (src/config.py:116-168)

A raw team.json record; only the fields `_parse_team_config` reads are
modelled.  The `account` field is either a string (current format) or an
object (legacy format), and any field may be absent. -/

structure TeamAccountObj where
  id : Option String
  organizationId : Option String
  deriving DecidableEq

structure TeamUserObj where
  email : Option String
  deriving DecidableEq

inductive AccountField where
  | str (s : String)
  | obj (o : TeamAccountObj)
  deriving DecidableEq

structure RawTeam where
  account : Option AccountField
  user : Option TeamUserObj
  accessToken : Option String
  token : Option String
  authorized : Option Bool
  password : Option String
  account_id : Option String
  deriving DecidableEq

/-- The normalized Team dict.  The legacy branch does not set the
`needs_login` and `authorized` keys, so both are `Option Bool` here and the
legacy branch leaves them `none`.  The `raw` back-pointer is omitted (it is
only consulted by functions outside the claims). -/
structure Team where
  name : String
  account_id : String
  org_id : String
  auth_token : String
  owner_email : String
  owner_password : String
  needs_login : Option Bool
  authorized : Option Bool
  format : String
  deriving DecidableEq

/-- `name = email.split("@")[0] if "@" in email else f"Team{index+1}"`; the
first component of `split("@")` is the prefix before the first `@`. -/
def teamNameOf (email : String) (index : Nat) : String :=
  if email.toList.contains '@' then
    String.mk (email.toList.takeWhile fun c => c ≠ '@')
  else "Team" ++ toString (index + 1)

/-- `_parse_team_config(t, index)` (src/config.py:116-168): format is
detected by `isinstance(t.get("account"), str)`; `not token` on a Python
string is the emptiness test. -/
def _parse_team_config (t : RawTeam) (index : Nat) : Team :=
  match t.account with
  | some (.str email) =>
    let token := t.token.getD ""
    { name := teamNameOf email index
      account_id := t.account_id.getD ""
      org_id := ""
      auth_token := token
      owner_email := email
      owner_password := t.password.getD ""
      needs_login := some token.isEmpty
      authorized := some (t.authorized.getD false)
      format := "new" }
  | other =>
    let email := ((t.user.map fun u => u.email.getD ("Team" ++ toString (index + 1))).getD
      ("Team" ++ toString (index + 1)))
    { name := teamNameOf email index
      account_id := (match other with | some (.obj o) => o.id.getD "" | _ => "")
      org_id := (match other with | some (.obj o) => o.organizationId.getD "" | _ => "")
      auth_token := t.accessToken.getD ""
      owner_email := email
      owner_password := ""
      needs_login := none
      authorized := none
      format := "old" }

/-! ## CPA polling configuration (src/config.py:312-317) -/

/-- The `[cpa]` section of config.toml; absent keys are `none`. -/
structure CpaSection where
  poll_interval : Option Nat
  poll_max_retries : Option Nat
  deriving DecidableEq

/-- `CPA_POLL_INTERVAL = _cpa.get("poll_interval", 2)` (src/config.py:315). -/
def CPA_POLL_INTERVAL (cpa : CpaSection) : Nat := cpa.poll_interval.getD 2

/-- `CPA_POLL_MAX_RETRIES = _cpa.get("poll_max_retries", 30)`
(src/config.py:316). -/
def CPA_POLL_MAX_RETRIES (cpa : CpaSection) : Nat := cpa.poll_max_retries.getD 30

/-! ## CPA status polling (src/cpa_service.py:251-276) -/

/-- Outcome of `cpa_poll_auth_status`, carrying the number of status checks
performed: `authorized` is the `return True` path, `pollTimeout` the path
that exhausts the loop, logs the distinct timeout error
(`"CPA 授权状态轮询超时"`) and returns `False`. -/
inductive PollOutcome where
  | authorized (checks : Nat)
  | pollTimeout (checks : Nat)
  deriving DecidableEq

/-- The `for attempt in range(max_retries)` loop: each iteration performs one
`cpa_check_auth_status(state)` call (modelled by `check attempt`, returning
the `(is_success, message)` pair), returns on success, and otherwise sleeps
and continues. -/
def cpa_poll_aux (check : Nat → Bool × String) : Nat → Nat → PollOutcome
  | attempt, 0 => .pollTimeout attempt
  | attempt, rem + 1 =>
    if (check attempt).1 then .authorized (attempt + 1)
    else cpa_poll_aux check (attempt + 1) rem

/-- `cpa_poll_auth_status(state)` (src/cpa_service.py:251-276) with the
interval and retry budget explicit; the interval only feeds `time.sleep` and
never affects control flow. -/
def cpa_poll_auth_status (check : Nat → Bool × String)
    (_interval maxRetries : Nat) : PollOutcome :=
  cpa_poll_aux check 0 maxRetries

/-! ## Callback-URL recognition (src/cpa_service.py:307-318,
src/s2a_service.py:469-473) -/

/-- Python substring containment (`pat in hay`) over character lists. -/
def charSub (pat : List Char) : List Char → Bool
  | [] => pat.isEmpty
  | c :: rest => pat.isPrefixOf (c :: rest) || charSub pat rest

def strIn (pat hay : String) : Bool := charSub pat.toList hay.toList

/-- `is_cpa_callback_url(url)` (src/cpa_service.py:307-318): falsy-URL guard,
then two substring tests. -/
def is_cpa_callback_url (url : String) : Bool :=
  if url = "" then false
  else strIn "localhost:1455/auth/callback" url && strIn "code=" url

/-- `is_s2a_callback_url(url)` (src/s2a_service.py:469-473): same body. -/
def is_s2a_callback_url (url : String) : Bool :=
  if url = "" then false
  else strIn "localhost:1455/auth/callback" url && strIn "code=" url

/-- Splitting a character list on a separator (Python `str.split(sep)` for a
one-character separator). -/
def splitOnChar (sep : Char) : List Char → List (List Char)
  | [] => [[]]
  | x :: xs =>
    if x = sep then [] :: splitOnChar sep xs
    else
      match splitOnChar sep xs with
      | [] => [[x]]
      | w :: ws => (x :: w) :: ws

/-- The spec's wording for C5, stated separately for comparison with the
source: the URL's query component (after the first `?`, before any `#`)
contains a parameter named `code` (the part of an `&`-separated item before
the first `=`), per `urlparse`/`parse_qs`. -/
def urlHasCodeParam (url : String) : Bool :=
  let cs := url.toList
  if cs.contains '?' then
    let query := ((cs.dropWhile fun c => c ≠ '?').drop 1).takeWhile fun c => c ≠ '#'
    (splitOnChar '&' query).any fun kv =>
      (kv.takeWhile fun c => c ≠ '=') == "code".toList
  else false

/-! ## Backend account-existence checks (src/crs_service.py:276-291,
src/s2a_service.py:439-451) -/

/-- One account from a backend listing call: its `name` and the email
embedded in its credentials (`credentials.email` for S2A; CRS stores one
under `accountInfo.email` but never reads it back). -/
structure BackendAccount where
  name : Option String
  credEmail : Option String
  deriving DecidableEq

/-- Python `str.lower()`, character-wise (the source only compares ASCII
email addresses). -/
def pyLower (s : String) : String := String.mk (s.toList.map Char.toLower)

/-- `crs_check_account_exists(email)` (src/crs_service.py:276-291) applied to
the list returned by `crs_get_accounts()`: case-insensitive match on `name`
only. -/
def crs_check_account_exists (accounts : List BackendAccount)
    (email : String) : Bool :=
  accounts.any fun a => pyLower (a.name.getD "") == pyLower email

/-- `s2a_check_account_exists(email, platform)` (src/s2a_service.py:439-451)
applied to the listed accounts: case-insensitive match on `name` or on
`credentials.email`. -/
def s2a_check_account_exists (accounts : List BackendAccount)
    (email : String) : Bool :=
  accounts.any fun a =>
    pyLower (a.name.getD "") == pyLower email ||
    pyLower (a.credEmail.getD "") == pyLower email

/-! ## Team-owner synchronization (src/crs_service.py:359-383) -/

/-- The names `from config import ...` brings into src/crs_service.py
(lines 9-17 of the source). -/
def crs_service_config_imports : List String :=
  ["CRS_API_BASE", "CRS_ADMIN_TOKEN", "REQUEST_TIMEOUT", "USER_AGENT",
   "TEAMS", "PROXY_ENABLED", "get_proxy_dict"]

/-- Every module-level global name in scope inside src/crs_service.py: the
config imports plus the module's other imports and its own definitions. -/
def crs_service_globals : List String :=
  crs_service_config_imports ++
  ["requests", "HTTPAdapter", "Retry", "urlparse", "parse_qs", "log",
   "create_session_with_retry", "http_session", "build_crs_headers",
   "crs_verify_token", "crs_generate_auth_url", "crs_exchange_code",
   "crs_add_account", "extract_code_from_url", "crs_get_accounts",
   "crs_check_account_exists", "crs_add_team_owner", "crs_sync_team_owners"]

/-- `crs_sync_team_owners()` (src/crs_service.py:359-383).  Its first
statement evaluates the global `INCLUDE_TEAM_OWNERS`; in Python an undefined
global raises `NameError` at that point, modelled by `lookupGlobal` returning
`none`.  On a resolved flag the function mirrors the source: return 0 when
the flag is falsy or `TEAMS` is empty, otherwise count the teams whose
`raw` data yields a successful `crs_add_team_owner` call (abstracted by
`addOwner`, which returns `none` for empty raw data or a failed add). -/
def crs_sync_team_owners {α β : Type} (lookupGlobal : String → Option Bool)
    (teams : List α) (addOwner : α → Option β) : Except String Nat :=
  match lookupGlobal "INCLUDE_TEAM_OWNERS" with
  | none => .error "NameError: name INCLUDE_TEAM_OWNERS is not defined"
  | some include_team_owners =>
    if !include_team_owners then .ok 0
    else if teams.isEmpty then .ok 0
    else .ok (teams.countP fun team => (addOwner team).isSome)

/-- Global-name lookup as performed inside src/crs_service.py: a name
resolves only if the module imports or defines it; `value` is the value
`config.INCLUDE_TEAM_OWNERS` would have (src/config.py:304). -/
def crs_service_env (value : Bool) : String → Option Bool := fun n =>
  if n = "INCLUDE_TEAM_OWNERS" ∧ n ∈ crs_service_globals then some value
  else none

/-! ## Tracker loading (src/utils.py:44-57) -/

/-- A minimal JSON value type for what `json.load` can return. -/
inductive PyJson where
  | jnull
  | jbool (b : Bool)
  | jstr (s : String)
  | jnum (n : Int)
  | jarr (items : List PyJson)
  | jobj (fields : List (String × PyJson))

/-- The default returned on any load failure (src/utils.py:57):
`{"teams": {}, "last_updated": None}`. -/
def defaultTracker : PyJson :=
  .jobj [("teams", .jobj []), ("last_updated", .jnull)]

/-- The condition of the tracker file when `load_team_tracker` runs. -/
inductive TrackerFileState where
  | missing
  | unreadable
  | invalidJson
  | validJson (v : PyJson)

/-- `load_team_tracker()` (src/utils.py:44-57): a missing file skips the
read; an open/read error or a `json.load` error is caught by the
`except Exception` handler and logged; both fall through to the default
dict.  A successfully parsed value is returned as-is. -/
def load_team_tracker : TrackerFileState → PyJson
  | .missing => defaultTracker
  | .unreadable => defaultTracker
  | .invalidJson => defaultTracker
  | .validJson v => v

/-- Whether a parsed JSON value is a dict carrying key `k`. -/
def hasKey (v : PyJson) (k : String) : Bool :=
  match v with
  | .jobj fields => fields.any fun kv => kv.1 == k
  | _ => false

/-- The Boolean `account["email"] == email` test used by the tracker loops. -/
def emailIs (e : String) (a : Account) : Bool := a.email == e

/-! ## Lemmas about the tracker operations -/

theorem getTeam_modifyTeam_self (ts : List (String × List Account)) (t : String)
    (f : List Account → List Account) :
    getTeam (modifyTeam t f ts) t = f (getTeam ts t) := by
  induction ts with
  | nil => simp [modifyTeam, getTeam]
  | cons p rest ih =>
    obtain ⟨n, l⟩ := p
    by_cases h : n = t
    · simp [modifyTeam, getTeam, h]
    · simp [modifyTeam, getTeam, h, ih]

theorem getTeam_modifyTeam_ne (ts : List (String × List Account)) (t t2 : String)
    (f : List Account → List Account) (h : t2 ≠ t) :
    getTeam (modifyTeam t f ts) t2 = getTeam ts t2 := by
  induction ts with
  | nil => simp [modifyTeam, getTeam, Ne.symm h]
  | cons p rest ih =>
    obtain ⟨n, l⟩ := p
    by_cases hn : n = t
    · subst hn
      simp [modifyTeam, getTeam, Ne.symm h]
    · by_cases hn2 : n = t2 <;> simp [modifyTeam, getTeam, hn, hn2, h, ih]

theorem map_fst_modifyTeam (ts : List (String × List Account)) (t : String)
    (f : List Account → List Account) :
    (modifyTeam t f ts).map Prod.fst =
      if t ∈ ts.map Prod.fst then ts.map Prod.fst else ts.map Prod.fst ++ [t] := by
  induction ts with
  | nil => simp [modifyTeam]
  | cons p rest ih =>
    obtain ⟨n, l⟩ := p
    by_cases h : n = t
    · simp [modifyTeam, h]
    · by_cases ht : t ∈ rest.map Prod.fst <;>
        simp [modifyTeam, h, ih, ht, Ne.symm h]

theorem modifyTeam_forall {P : List Account → Prop} (hnil : P [])
    (f : List Account → List Account) (hf : ∀ l, P l → P (f l)) (t : String) :
    ∀ ts : List (String × List Account), (∀ p ∈ ts, P p.2) →
      ∀ p ∈ modifyTeam t f ts, P p.2 := by
  intro ts
  induction ts with
  | nil =>
    intro _ p hp
    simp [modifyTeam] at hp
    rw [hp]
    exact hf [] hnil
  | cons q rest ih =>
    obtain ⟨n, l⟩ := q
    intro hts p hp
    by_cases h : n = t
    · simp [modifyTeam, h] at hp
      rcases hp with hp | hp
      · rw [hp]
        exact hf l (hts (n, l) (by simp))
      · exact hts p (List.mem_cons_of_mem _ hp)
    · simp [modifyTeam, h] at hp
      rcases hp with hp | hp
      · rw [hp]
        exact hts (n, l) (by simp)
      · exact ih (fun q hq => hts q (List.mem_cons_of_mem _ hq)) p hp

theorem map_email_upsertStatus (e s n : String) (l : List Account) :
    (upsertStatus e s n l).map Account.email =
      if e ∈ l.map Account.email then l.map Account.email
      else l.map Account.email ++ [e] := by
  induction l with
  | nil => simp [upsertStatus]
  | cons a rest ih =>
    by_cases h : a.email = e
    · simp [upsertStatus, h]
    · by_cases he : e ∈ rest.map Account.email <;>
        simp [upsertStatus, h, ih, he, Ne.symm h]

theorem map_email_upsertStatusPassword (e pw s n : String) (l : List Account) :
    (upsertStatusPassword e pw s n l).map Account.email =
      if e ∈ l.map Account.email then l.map Account.email
      else l.map Account.email ++ [e] := by
  induction l with
  | nil => simp [upsertStatusPassword]
  | cons a rest ih =>
    by_cases h : a.email = e
    · simp [upsertStatusPassword, h]
    · by_cases he : e ∈ rest.map Account.email <;>
        simp [upsertStatusPassword, h, ih, he, Ne.symm h]

theorem nodup_email_upsertStatus (e s n : String) (l : List Account)
    (h : (l.map Account.email).Nodup) :
    ((upsertStatus e s n l).map Account.email).Nodup := by
  rw [map_email_upsertStatus]
  by_cases he : e ∈ l.map Account.email
  · simpa [he]
  · simp [he, List.nodup_append, h]

theorem nodup_email_upsertStatusPassword (e pw s n : String) (l : List Account)
    (h : (l.map Account.email).Nodup) :
    ((upsertStatusPassword e pw s n l).map Account.email).Nodup := by
  rw [map_email_upsertStatusPassword]
  by_cases he : e ∈ l.map Account.email
  · simpa [he]
  · simp [he, List.nodup_append, h]

theorem trackerWF_add_account_to_tracker (t : Tracker) (T E s n : String)
    (hwf : TrackerWF t) : TrackerWF (add_account_to_tracker t T E s n) := by
  obtain ⟨h1, h2⟩ := hwf
  refine ⟨?_, ?_⟩
  · show ((modifyTeam T _ t.teams).map Prod.fst).Nodup
    rw [map_fst_modifyTeam]
    by_cases hT : T ∈ t.teams.map Prod.fst
    · simpa [hT]
    · simp [hT, List.nodup_append, h1]
  · exact modifyTeam_forall (by simp) _
      (fun l hl => nodup_email_upsertStatus E s n l hl) T t.teams h2

theorem trackerWF_add_account_with_password (t : Tracker) (T E pw s n : String)
    (hwf : TrackerWF t) : TrackerWF (add_account_with_password t T E pw s n) := by
  obtain ⟨h1, h2⟩ := hwf
  refine ⟨?_, ?_⟩
  · show ((modifyTeam T _ t.teams).map Prod.fst).Nodup
    rw [map_fst_modifyTeam]
    by_cases hT : T ∈ t.teams.map Prod.fst
    · simpa [hT]
    · simp [hT, List.nodup_append, h1]
  · exact modifyTeam_forall (by simp) _
      (fun l hl => nodup_email_upsertStatusPassword E pw s n l hl) T t.teams h2

theorem trackerWF_applyOp (t : Tracker) (op : UpsertOp) (hwf : TrackerWF t) :
    TrackerWF (applyOp t op) := by
  cases op with
  | plain T E s n => exact trackerWF_add_account_to_tracker t T E s n hwf
  | withPassword T E pw s n => exact trackerWF_add_account_with_password t T E pw s n hwf

theorem trackerWF_applyOps (ops : List UpsertOp) :
    ∀ t : Tracker, TrackerWF t → TrackerWF (applyOps t ops) := by
  induction ops with
  | nil => intro t hwf; exact hwf
  | cons op rest ih =>
    intro t hwf
    exact ih (applyOp t op) (trackerWF_applyOp t op hwf)

theorem filter_emailIs_eq_nil (e : String) (l : List Account)
    (h : e ∉ l.map Account.email) : l.filter (emailIs e) = [] := by
  induction l with
  | nil => rfl
  | cons a rest ih =>
    simp only [List.map_cons, List.mem_cons] at h
    push_neg at h
    simp [emailIs, Ne.symm h.1, ih h.2]

theorem length_filter_le_one_of_nodup (e : String) (l : List Account)
    (h : (l.map Account.email).Nodup) : (l.filter (emailIs e)).length ≤ 1 := by
  induction l with
  | nil => simp
  | cons a rest ih =>
    simp only [List.map_cons, List.nodup_cons] at h
    by_cases hae : a.email = e
    · rw [← hae] at *
      simp [emailIs, filter_emailIs_eq_nil a.email rest h.1]
    · simpa [emailIs, hae] using ih h.2

theorem filter_upsertStatus (e s n : String) (l : List Account)
    (h : (l.filter (emailIs e)).length ≤ 1) :
    ∃ a, (upsertStatus e s n l).filter (emailIs e) = [a] ∧ a.status = some s := by
  induction l with
  | nil =>
    exact ⟨{ email := e, status := some s, password := none, role := none,
             created_at := some n, updated_at := some n },
      by simp [upsertStatus, emailIs], rfl⟩
  | cons a rest ih =>
    by_cases hae : a.email = e
    · have hfil : rest.filter (emailIs e) = [] := by
        have h2 := h
        simp [emailIs, hae] at h2
        exact List.filter_eq_nil_iff.mpr fun b hb => by simp [emailIs, h2 b hb]
      exact ⟨{ a with status := some s, updated_at := some n },
        by simp [upsertStatus, hae, emailIs, hfil], rfl⟩
    · have hrest : (rest.filter (emailIs e)).length ≤ 1 := by
        simpa [emailIs, hae] using h
      obtain ⟨b, hb, hbs⟩ := ih hrest
      exact ⟨b, by simp [upsertStatus, hae, emailIs, hb], hbs⟩

theorem nodup_getTeam (T : String) :
    ∀ ts : List (String × List Account),
      (∀ p ∈ ts, (p.2.map Account.email).Nodup) →
      ((getTeam ts T).map Account.email).Nodup := by
  intro ts
  induction ts with
  | nil => intro _; simp [getTeam]
  | cons p rest ih =>
    obtain ⟨n, l⟩ := p
    intro hts
    by_cases h : n = T
    · simpa [getTeam, h] using hts (n, l) (by simp)
    · simpa [getTeam, h] using ih fun q hq => hts q (List.mem_cons_of_mem _ hq)

/-- The first-match decomposition shared by both tracker upserts: an existing
entry for the email splits the list as `l1 ++ a :: l2` with no earlier match,
and each upsert rewrites exactly that entry's written fields. -/
theorem upsert_decomp (E s pw n : String) :
    ∀ l : List Account, (∃ a ∈ l, a.email = E) →
      ∃ l1 a l2, l = l1 ++ a :: l2 ∧ (∀ b ∈ l1, b.email ≠ E) ∧ a.email = E ∧
        upsertStatus E s n l =
          l1 ++ { a with status := some s, updated_at := some n } :: l2 ∧
        upsertStatusPassword E pw s n l =
          l1 ++ { a with status := some s, password := some pw,
                         updated_at := some n } :: l2 := by
  intro l
  induction l with
  | nil => rintro ⟨a, ha, -⟩; cases ha
  | cons a rest ih =>
    intro hex
    by_cases hae : a.email = E
    · exact ⟨[], a, rest, rfl, by simp, hae,
        by simp [upsertStatus, hae], by simp [upsertStatusPassword, hae]⟩
    · have hex2 : ∃ b ∈ rest, b.email = E := by
        obtain ⟨b, hb, hbe⟩ := hex
        rcases List.mem_cons.mp hb with hb | hb
        · exact absurd (hb ▸ hbe) hae
        · exact ⟨b, hb, hbe⟩
      obtain ⟨l1, c, l2, hl, hl1, hc, hu1, hu2⟩ := ih hex2
      refine ⟨a :: l1, c, l2, by simp [hl], ?_, hc, ?_, ?_⟩
      · intro b hb
        rcases List.mem_cons.mp hb with hb | hb
        · exact hb ▸ hae
        · exact hl1 b hb
      · simp [upsertStatus, hae, hu1]
      · simp [upsertStatusPassword, hae, hu2]

/-! ## Claim theorems -/

/-- C1: from any well-formed tracker state, upserting (T, E, s1) and then
(T, E, s2) through `add_account_to_tracker` leaves exactly one entry for
(T, E) in T's list, and that entry's status is s2; and every sequence of
`add_account_to_tracker` / `add_account_with_password` upserts preserves the
invariant of at most one entry per (team, email) pair. -/
theorem tracker_upsert_idempotent_unique (t : Tracker) (T E s1 s2 n1 n2 : String)
    (ops : List UpsertOp) (hwf : TrackerWF t) :
    (∃ a, (getTeam (add_account_to_tracker
            (add_account_to_tracker t T E s1 n1) T E s2 n2).teams T).filter
          (emailIs E) = [a] ∧ a.status = some s2) ∧
    TrackerWF (applyOps t ops) := by
  refine ⟨?_, trackerWF_applyOps ops t hwf⟩
  have hwf1 := trackerWF_add_account_to_tracker t T E s1 n1 hwf
  have hle : ((getTeam (add_account_to_tracker t T E s1 n1).teams T).filter
      (emailIs E)).length ≤ 1 :=
    length_filter_le_one_of_nodup E _
      (nodup_getTeam T (add_account_to_tracker t T E s1 n1).teams hwf1.2)
  have hgt : getTeam (add_account_to_tracker
        (add_account_to_tracker t T E s1 n1) T E s2 n2).teams T
      = upsertStatus E s2 n2 (getTeam (add_account_to_tracker t T E s1 n1).teams T) := by
    simp only [add_account_to_tracker]
    exact getTeam_modifyTeam_self _ T _
  rw [hgt]
  exact filter_upsertStatus E s2 n2 _ hle

theorem tracker_upsert_idempotent_unique_witness :
    TrackerWF ⟨[]⟩ ∧
    ((∃ a, (getTeam (add_account_to_tracker
            (add_account_to_tracker ⟨[]⟩ "TeamA" "e@x.com" "invited" "d1")
            "TeamA" "e@x.com" "registered" "d2").teams "TeamA").filter
          (emailIs "e@x.com") = [a] ∧ a.status = some "registered") ∧
      TrackerWF (applyOps ⟨[]⟩ [.withPassword "TeamB" "f@x.com" "pw" "invited" "d3"])) :=
  ⟨by decide, tracker_upsert_idempotent_unique ⟨[]⟩ "TeamA" "e@x.com" "invited"
    "registered" "d1" "d2" [.withPassword "TeamB" "f@x.com" "pw" "invited" "d3"]
    (by decide)⟩

/-- C2: `get_incomplete_accounts` returns no entry with status `"completed"`
and, conversely, returns an entry (carrying email, status, password, role)
for every entry of the team whose status is not `"completed"`. -/
theorem incomplete_accounts_spec (t : Tracker) (T : String) :
    (∀ e ∈ get_incomplete_accounts t T, e.status ≠ "completed") ∧
    (∀ a ∈ getTeam t.teams T, a.status.getD "" ≠ "completed" →
      ({ email := a.email, status := a.status.getD "",
         password := a.password.getD "", role := a.role.getD "member" } :
        IncompleteEntry) ∈ get_incomplete_accounts t T) := by
  constructor
  · intro e he
    simp only [get_incomplete_accounts, List.mem_filterMap] at he
    obtain ⟨a, -, hcond⟩ := he
    split_ifs at hcond with hs
    cases hcond
    simpa using hs
  · intro a ha hs
    simp only [get_incomplete_accounts, List.mem_filterMap]
    exact ⟨a, ha, by simp [hs]⟩

theorem incomplete_accounts_spec_witness :
    (∀ e ∈ get_incomplete_accounts
        ⟨[("TeamA",
           [{ email := "done@x.com", status := some "completed", password := none,
              role := none, created_at := none, updated_at := none },
            { email := "todo@x.com", status := some "invited", password := some "pw",
              role := none, created_at := none, updated_at := none }])]⟩ "TeamA",
      e.status ≠ "completed") ∧
    (∀ a ∈ getTeam (Tracker.mk
        [("TeamA",
          [{ email := "done@x.com", status := some "completed", password := none,
             role := none, created_at := none, updated_at := none },
           { email := "todo@x.com", status := some "invited", password := some "pw",
             role := none, created_at := none, updated_at := none }])]).teams "TeamA",
      a.status.getD "" ≠ "completed" →
      ({ email := a.email, status := a.status.getD "",
         password := a.password.getD "", role := a.role.getD "member" } :
        IncompleteEntry) ∈ get_incomplete_accounts
          ⟨[("TeamA",
             [{ email := "done@x.com", status := some "completed", password := none,
                role := none, created_at := none, updated_at := none },
              { email := "todo@x.com", status := some "invited", password := some "pw",
                role := none, created_at := none, updated_at := none }])]⟩ "TeamA") :=
  incomplete_accounts_spec
    ⟨[("TeamA",
       [{ email := "done@x.com", status := some "completed", password := none,
          role := none, created_at := none, updated_at := none },
        { email := "todo@x.com", status := some "invited", password := some "pw",
          role := none, created_at := none, updated_at := none }])]⟩ "TeamA"

/-- C3: `_parse_team_config` detects the record format by whether the
`account` field is a string; the spec's legacy example normalizes to
`auth_token = "tok"`, `org_id = "o1"`, `name = "a"` (format `"old"`), and the
spec's current example to `needs_login = false`, `authorized = true`,
`name = "x"` (format `"new"`). -/
theorem parse_team_config_normalization :
    (_parse_team_config
        { account := some (.obj { id := some "1", organizationId := some "o1" }),
          user := some { email := some "a@b.com" }, accessToken := some "tok",
          token := none, authorized := none, password := none,
          account_id := none } 0).auth_token = "tok" ∧
    (_parse_team_config
        { account := some (.obj { id := some "1", organizationId := some "o1" }),
          user := some { email := some "a@b.com" }, accessToken := some "tok",
          token := none, authorized := none, password := none,
          account_id := none } 0).org_id = "o1" ∧
    (_parse_team_config
        { account := some (.obj { id := some "1", organizationId := some "o1" }),
          user := some { email := some "a@b.com" }, accessToken := some "tok",
          token := none, authorized := none, password := none,
          account_id := none } 0).name = "a" ∧
    (_parse_team_config
        { account := some (.obj { id := some "1", organizationId := some "o1" }),
          user := some { email := some "a@b.com" }, accessToken := some "tok",
          token := none, authorized := none, password := none,
          account_id := none } 0).format = "old" ∧
    (_parse_team_config
        { account := some (.str "x@y.com"), user := none, accessToken := none,
          token := some "t1", authorized := some true, password := none,
          account_id := none } 0).needs_login = some false ∧
    (_parse_team_config
        { account := some (.str "x@y.com"), user := none, accessToken := none,
          token := some "t1", authorized := some true, password := none,
          account_id := none } 0).authorized = some true ∧
    (_parse_team_config
        { account := some (.str "x@y.com"), user := none, accessToken := none,
          token := some "t1", authorized := some true, password := none,
          account_id := none } 0).name = "x" ∧
    (_parse_team_config
        { account := some (.str "x@y.com"), user := none, accessToken := none,
          token := some "t1", authorized := some true, password := none,
          account_id := none } 0).format = "new" := by decide

theorem cpa_poll_aux_all_false (check : Nat → Bool × String)
    (h : ∀ k, (check k).1 = false) :
    ∀ rem attempt, cpa_poll_aux check attempt rem = .pollTimeout (attempt + rem) := by
  intro rem
  induction rem with
  | zero => intro attempt; simp [cpa_poll_aux]
  | succ r ih =>
    intro attempt
    rw [cpa_poll_aux, h attempt]
    simp only [Bool.false_eq_true, if_false]
    rw [ih (attempt + 1)]
    congr 1
    omega

/-- C4: when the status check never reports success, `cpa_poll_auth_status`
performs exactly `maxRetries` checks and terminates with the timeout outcome
(the branch logging the poll-timeout error and returning `False`), for every
positive interval and retry budget. -/
theorem cpa_poll_never_ok_times_out (check : Nat → Bool × String)
    (interval maxRetries : Nat) (_hi : 0 < interval) (_hr : 0 < maxRetries)
    (h : ∀ k, (check k).1 = false) :
    cpa_poll_auth_status check interval maxRetries = .pollTimeout maxRetries := by
  have := cpa_poll_aux_all_false check h maxRetries 0
  simpa [cpa_poll_auth_status] using this

theorem cpa_poll_never_ok_times_out_witness :
    0 < 1 ∧ 0 < 3 ∧
    (∀ k : Nat, ((fun _ : Nat => (false, "pending")) k).1 = false) ∧
    cpa_poll_auth_status (fun _ : Nat => (false, "pending")) 1 3 = .pollTimeout 3 :=
  ⟨Nat.one_pos, by decide, fun _ => rfl,
    cpa_poll_never_ok_times_out (fun _ => (false, "pending")) 1 3 Nat.one_pos
      (by decide) fun _ => rfl⟩

/-- C5 counterexample: the source recognizes callbacks by substring search
(`"code=" in url`), not by parsing query parameters, so a URL whose only
parameters are `decode` and `state` — no `code` parameter — is still
accepted, refuting "never returns true for a URL whose query has no `code`
parameter". -/
theorem callback_url_substring_counterexample :
    is_cpa_callback_url "http://localhost:1455/auth/callback?decode=1&state=xyz" = true ∧
    is_s2a_callback_url "http://localhost:1455/auth/callback?decode=1&state=xyz" = true ∧
    urlHasCodeParam "http://localhost:1455/auth/callback?decode=1&state=xyz" = false := by
  decide

/-- C5 amended: both recognizers accept a URL exactly when it is non-empty
and contains the substrings `"localhost:1455/auth/callback"` and `"code="`;
in particular the spec's two examples behave as claimed, but containment of
`"code="` is weaker than having a `code` query parameter. -/
theorem callback_url_recognition (url : String) :
    is_cpa_callback_url url = is_s2a_callback_url url ∧
    (is_cpa_callback_url url = true ↔
      url ≠ "" ∧ strIn "localhost:1455/auth/callback" url = true ∧
        strIn "code=" url = true) ∧
    is_cpa_callback_url "http://localhost:1455/auth/callback?code=abc&state=xyz" = true ∧
    is_cpa_callback_url "http://localhost:1455/auth/callback?state=xyz" = false ∧
    is_s2a_callback_url "http://localhost:1455/auth/callback?code=abc&state=xyz" = true ∧
    is_s2a_callback_url "http://localhost:1455/auth/callback?state=xyz" = false := by
  refine ⟨rfl, ?_, by decide, by decide, by decide, by decide⟩
  by_cases h : url = "" <;> simp [is_cpa_callback_url, h]

theorem callback_url_recognition_witness :
    is_cpa_callback_url "u" = is_s2a_callback_url "u" ∧
    (is_cpa_callback_url "u" = true ↔
      "u" ≠ "" ∧ strIn "localhost:1455/auth/callback" "u" = true ∧
        strIn "code=" "u" = true) ∧
    is_cpa_callback_url "http://localhost:1455/auth/callback?code=abc&state=xyz" = true ∧
    is_cpa_callback_url "http://localhost:1455/auth/callback?state=xyz" = false ∧
    is_s2a_callback_url "http://localhost:1455/auth/callback?code=abc&state=xyz" = true ∧
    is_s2a_callback_url "http://localhost:1455/auth/callback?state=xyz" = false :=
  callback_url_recognition "u"

/-- C6 counterexample: `crs_check_account_exists` matches on the account
`name` only, so for a listed account whose credential email matches the
probe but whose name does not, the claimed equivalence with "name or
embedded credential email matches" fails. -/
theorem account_exists_crs_ignores_cred_email :
    ¬ (crs_check_account_exists
          [{ name := some "owner1", credEmail := some "foo@bar.com" }]
          "foo@bar.com" = true ↔
        ∃ a ∈ [({ name := some "owner1", credEmail := some "foo@bar.com" } :
            BackendAccount)],
          pyLower (a.name.getD "") = pyLower "foo@bar.com" ∨
          pyLower (a.credEmail.getD "") = pyLower "foo@bar.com") := by
  decide

/-- C6 amended: `crs_check_account_exists` returns true exactly when some
listed account's name matches case-insensitively, while
`s2a_check_account_exists` also accepts a match on the embedded credential
email; both return true for `"Foo@Bar.com"` against an account named
`"foo@bar.com"`. -/
theorem account_exists_matching (accounts : List BackendAccount) (email : String) :
    (crs_check_account_exists accounts email = true ↔
      ∃ a ∈ accounts, pyLower (a.name.getD "") = pyLower email) ∧
    (s2a_check_account_exists accounts email = true ↔
      ∃ a ∈ accounts, pyLower (a.name.getD "") = pyLower email ∨
        pyLower (a.credEmail.getD "") = pyLower email) ∧
    crs_check_account_exists
      [{ name := some "foo@bar.com", credEmail := none }] "Foo@Bar.com" = true ∧
    s2a_check_account_exists
      [{ name := some "foo@bar.com", credEmail := none }] "Foo@Bar.com" = true := by
  refine ⟨?_, ?_, by decide, by decide⟩
  · simp [crs_check_account_exists, List.any_eq_true]
  · simp [s2a_check_account_exists, List.any_eq_true]

theorem account_exists_matching_witness :
    (crs_check_account_exists [] "a@b.com" = true ↔
      ∃ a ∈ ([] : List BackendAccount), pyLower (a.name.getD "") = pyLower "a@b.com") ∧
    (s2a_check_account_exists [] "a@b.com" = true ↔
      ∃ a ∈ ([] : List BackendAccount), pyLower (a.name.getD "") = pyLower "a@b.com" ∨
        pyLower (a.credEmail.getD "") = pyLower "a@b.com") ∧
    crs_check_account_exists
      [{ name := some "foo@bar.com", credEmail := none }] "Foo@Bar.com" = true ∧
    s2a_check_account_exists
      [{ name := some "foo@bar.com", credEmail := none }] "Foo@Bar.com" = true :=
  account_exists_matching [] "a@b.com"

/-- C7 (code bug): every call to `crs_sync_team_owners` escapes with a
`NameError` instead of returning a count, because the function's first
statement reads the global `INCLUDE_TEAM_OWNERS`, which src/crs_service.py
never imports or defines (its config import list is
`crs_service_config_imports`); this holds whatever the configured flag value,
team list and per-team add outcomes are. -/
theorem crs_sync_team_owners_raises {α β : Type} (teams : List α)
    (addOwner : α → Option β) (value : Bool) :
    crs_sync_team_owners (crs_service_env value) teams addOwner =
      .error "NameError: name INCLUDE_TEAM_OWNERS is not defined" := rfl

/-- C8 counterexample: with no `[cpa]` polling keys configured, the poll
interval defaults to 2 (not 3) and the retry budget to 30 (not 20). -/
theorem cpa_poll_defaults_counterexample :
    CPA_POLL_INTERVAL { poll_interval := none, poll_max_retries := none } ≠ 3 ∧
    CPA_POLL_MAX_RETRIES { poll_interval := none, poll_max_retries := none } ≠ 20 := by
  decide

/-- C8 amended: the CPA poll defaults are a 2-second interval and 30
attempts, still about 60 seconds of total waiting. -/
theorem cpa_poll_defaults :
    CPA_POLL_INTERVAL { poll_interval := none, poll_max_retries := none } = 2 ∧
    CPA_POLL_MAX_RETRIES { poll_interval := none, poll_max_retries := none } = 30 ∧
    CPA_POLL_INTERVAL { poll_interval := none, poll_max_retries := none } *
      CPA_POLL_MAX_RETRIES { poll_interval := none, poll_max_retries := none } = 60 := by
  decide

/-- C9: for each of the three failure states of the tracker file — missing,
unreadable, invalid JSON — `load_team_tracker` returns the default dict
`{"teams": {}, "last_updated": None}` instead of raising, so the caller
receives a dict containing a `"teams"` key. -/
theorem load_team_tracker_total (st : TrackerFileState)
    (h : st = .missing ∨ st = .unreadable ∨ st = .invalidJson) :
    load_team_tracker st = defaultTracker ∧
    hasKey (load_team_tracker st) "teams" = true := by
  rcases h with h | h | h <;> subst h <;> exact ⟨rfl, rfl⟩

theorem load_team_tracker_total_witness :
    (TrackerFileState.missing = TrackerFileState.missing ∨
      TrackerFileState.missing = TrackerFileState.unreadable ∨
      TrackerFileState.missing = TrackerFileState.invalidJson) ∧
    (load_team_tracker .missing = defaultTracker ∧
      hasKey (load_team_tracker .missing) "teams" = true) :=
  ⟨Or.inl rfl, load_team_tracker_total .missing (Or.inl rfl)⟩

/-- C10: when an entry for (T, E) exists, `add_account_to_tracker` rewrites
only that entry's `status` and `updated_at` (and `add_account_with_password`
additionally only `password`), keeping its `email`, `created_at`, `password`
and `role` from before, leaving every other entry of T's list in place and
every other team's list untouched. -/
theorem tracker_upsert_frame (t : Tracker) (T E s pw n : String)
    (h : ∃ a ∈ getTeam t.teams T, a.email = E) :
    (∃ l1 a l2,
      getTeam t.teams T = l1 ++ a :: l2 ∧ (∀ b ∈ l1, b.email ≠ E) ∧ a.email = E ∧
      getTeam (add_account_to_tracker t T E s n).teams T =
        l1 ++ { a with status := some s, updated_at := some n } :: l2 ∧
      getTeam (add_account_with_password t T E pw s n).teams T =
        l1 ++ { a with status := some s, password := some pw,
                       updated_at := some n } :: l2) ∧
    (∀ T2, T2 ≠ T →
      getTeam (add_account_to_tracker t T E s n).teams T2 = getTeam t.teams T2 ∧
      getTeam (add_account_with_password t T E pw s n).teams T2 =
        getTeam t.teams T2) := by
  constructor
  · obtain ⟨l1, a, l2, hl, hl1, ha, hu1, hu2⟩ :=
      upsert_decomp E s pw n (getTeam t.teams T) h
    refine ⟨l1, a, l2, hl, hl1, ha, ?_, ?_⟩
    · simp only [add_account_to_tracker]
      rw [getTeam_modifyTeam_self, hu1]
    · simp only [add_account_with_password]
      rw [getTeam_modifyTeam_self, hu2]
  · intro T2 hT2
    constructor
    · simp only [add_account_to_tracker]
      exact getTeam_modifyTeam_ne t.teams T T2 _ hT2
    · simp only [add_account_with_password]
      exact getTeam_modifyTeam_ne t.teams T T2 _ hT2

theorem tracker_upsert_frame_witness :
    (∃ a ∈ getTeam (Tracker.mk
        [("TeamA",
          [{ email := "e@x.com", status := some "invited", password := some "pw0",
             role := some "owner", created_at := some "c0",
             updated_at := some "u0" }])]).teams "TeamA", a.email = "e@x.com") ∧
    ((∃ l1 a l2,
      getTeam (Tracker.mk
        [("TeamA",
          [{ email := "e@x.com", status := some "invited", password := some "pw0",
             role := some "owner", created_at := some "c0",
             updated_at := some "u0" }])]).teams "TeamA" = l1 ++ a :: l2 ∧
      (∀ b ∈ l1, b.email ≠ "e@x.com") ∧ a.email = "e@x.com" ∧
      getTeam (add_account_to_tracker (Tracker.mk
        [("TeamA",
          [{ email := "e@x.com", status := some "invited", password := some "pw0",
             role := some "owner", created_at := some "c0",
             updated_at := some "u0" }])]) "TeamA" "e@x.com" "registered" "d9").teams
          "TeamA" =
        l1 ++ { a with status := some "registered", updated_at := some "d9" } :: l2 ∧
      getTeam (add_account_with_password (Tracker.mk
        [("TeamA",
          [{ email := "e@x.com", status := some "invited", password := some "pw0",
             role := some "owner", created_at := some "c0",
             updated_at := some "u0" }])]) "TeamA" "e@x.com" "pw2" "registered"
          "d9").teams "TeamA" =
        l1 ++ { a with status := some "registered", password := some "pw2",
                       updated_at := some "d9" } :: l2) ∧
    (∀ T2, T2 ≠ "TeamA" →
      getTeam (add_account_to_tracker (Tracker.mk
        [("TeamA",
          [{ email := "e@x.com", status := some "invited", password := some "pw0",
             role := some "owner", created_at := some "c0",
             updated_at := some "u0" }])]) "TeamA" "e@x.com" "registered" "d9").teams
          T2 =
        getTeam (Tracker.mk
        [("TeamA",
          [{ email := "e@x.com", status := some "invited", password := some "pw0",
             role := some "owner", created_at := some "c0",
             updated_at := some "u0" }])]).teams T2 ∧
      getTeam (add_account_with_password (Tracker.mk
        [("TeamA",
          [{ email := "e@x.com", status := some "invited", password := some "pw0",
             role := some "owner", created_at := some "c0",
             updated_at := some "u0" }])]) "TeamA" "e@x.com" "pw2" "registered"
          "d9").teams T2 =
        getTeam (Tracker.mk
        [("TeamA",
          [{ email := "e@x.com", status := some "invited", password := some "pw0",
             role := some "owner", created_at := some "c0",
             updated_at := some "u0" }])]).teams T2)) :=
  ⟨by decide, tracker_upsert_frame (Tracker.mk
    [("TeamA",
      [{ email := "e@x.com", status := some "invited", password := some "pw0",
         role := some "owner", created_at := some "c0",
         updated_at := some "u0" }])]) "TeamA" "e@x.com" "registered" "pw2" "d9"
    (by decide)⟩

end Provisioner
